import Mathlib

/-!
Shallow embedding of the snapshot segment subsystem of
crates/primitives/src/snapshot/segment.rs: the segment kinds, the inclusive
range primitive, the segment header with its kind-dependent mutation
operations, and the filename codec.

Machine integers (u64) are modelled as Nat; the wrapping `+= 1` increments
take an explicit `% 2^64`, and Rust's `saturating_sub` coincides with
truncated Nat subtraction. Rust functions that can panic are embedded as
Option-returning functions, with `none` standing for the panic.
-/

/-- Width of u64 values. -/
def U64_MOD : Nat := 2 ^ 64

/-- Segment of the data that can be snapshotted (enum SnapshotSegment). -/
inductive SnapshotSegment
  | Headers
  | Transactions
  | Receipts
deriving DecidableEq, Repr

/-- The strum serialize tags of the SnapshotSegment variants, as used by
as_ref() inside filename. -/
def SnapshotSegment.as_ref : SnapshotSegment → String
  | .Headers => "headers"
  | .Transactions => "transactions"
  | .Receipts => "receipts"

/-- The strum from_str decoding of a segment tag (EnumString with the
serialize attributes of the source); operates on the character list of one
underscore-separated token. -/
def SnapshotSegment.from_str (s : List Char) : Option SnapshotSegment :=
  if s = "headers".data then some SnapshotSegment.Headers
  else if s = "transactions".data then some SnapshotSegment.Transactions
  else if s = "receipts".data then some SnapshotSegment.Receipts
  else none

/-- Helper type for segment transaction and block INCLUSIVE ranges
(struct SegmentRangeInclusive). The Rust field end is named end_ here
because end is a Lean keyword. -/
structure SegmentRangeInclusive where
  start : Nat
  end_ : Nat
deriving DecidableEq, Repr

/-- Constructor SegmentRangeInclusive::new. -/
def SegmentRangeInclusive.new (start end_ : Nat) : SegmentRangeInclusive :=
  ⟨start, end_⟩

/-- Modelled from the spec: the InclusionFilter enum of the snapshot module
(its defining file is not among the provided sources); the spec's naming
grammar shows the cuckoo filter variant with tag "cuckoo". -/
inductive InclusionFilter
  | Cuckoo
deriving DecidableEq, Repr

/-- Modelled from the spec: the PerfectHashingFunction enum of the snapshot
module (not among the provided sources); the spec's test vectors show the
fmph variant with tag "fmph". -/
inductive PerfectHashingFunction
  | Fmph
deriving DecidableEq, Repr

/-- Modelled from the spec: the Filters enum of the snapshot module (not
among the provided sources): WithFilters(InclusionFilter,
PerfectHashingFunction) or WithoutFilters. -/
inductive Filters
  | WithFilters (inclusion_filter : InclusionFilter) (phf : PerfectHashingFunction)
  | WithoutFilters
deriving DecidableEq, Repr

/-- Modelled from the spec: the Compression enum of the snapshot module (not
among the provided sources): Lz4, Zstd, ZstdWithDictionary with tags
"lz4", "zstd", "zstd-dict". -/
inductive Compression
  | Lz4
  | Zstd
  | ZstdWithDictionary
deriving DecidableEq, Repr

/-- Modelled from the spec: the as_ref tag of an InclusionFilter. -/
def InclusionFilter.as_ref : InclusionFilter → String
  | .Cuckoo => "cuckoo"

/-- Modelled from the spec: the as_ref tag of a PerfectHashingFunction. -/
def PerfectHashingFunction.as_ref : PerfectHashingFunction → String
  | .Fmph => "fmph"

/-- Modelled from the spec: the as_ref tag of a Compression choice. -/
def Compression.as_ref : Compression → String
  | .Lz4 => "lz4"
  | .Zstd => "zstd"
  | .ZstdWithDictionary => "zstd-dict"

/-- Fuel-driven little-endian decimal digit extraction; the fuel only needs
to be at least the value itself for the answer to be exact. -/
def natDigitsAux : Nat → Nat → List Nat
  | 0, _ => []
  | fuel + 1, n => if n = 0 then [] else (n % 10) :: natDigitsAux fuel (n / 10)

/-- Little-endian decimal digits of a natural number; 0 gives []. This is
the digit loop behind the Display formatting of a u64. -/
def natDigits (n : Nat) : List Nat := natDigitsAux n n

/-- The ASCII character of one decimal digit. -/
def decDigit (d : Nat) : Char := Char.ofNat (48 + d)

/-- Decimal rendering of a u64 value, embedding Rust's Display for u64 as
used by the format! call in filename. -/
def natToString (n : Nat) : String :=
  if n = 0 then "0" else ⟨((natDigits n).reverse.map decDigit)⟩

/-- Numeric value of an ASCII digit character. -/
def charVal (c : Char) : Nat := c.toNat - 48

/-- Embedding of Rust's str::parse::<u64> (u64::from_str) on the character
list of a token: an optional leading plus sign, then one or more ASCII
digits, rejecting values that do not fit in u64. -/
def parseU64 (s : List Char) : Option Nat :=
  match s with
  | [] => none
  | c :: cs =>
    let ds := if c = '+' then cs else c :: cs
    match ds with
    | [] => none
    | _ =>
      if ds.all Char.isDigit then
        let n := ds.foldl (fun acc d => acc * 10 + charVal d) 0
        if n < U64_MOD then some n else none
      else none

/-- Embedding of Rust's str::split on the underscore character: splits a
character list at each underscore, keeping empty pieces, always returning
at least one piece. -/
def splitUnderscore : List Char → List (List Char)
  | [] => [[]]
  | c :: cs =>
    if c = '_' then [] :: splitUnderscore cs
    else
      match splitUnderscore cs with
      | [] => [[c]]
      | t :: ts => (c :: t) :: ts

/-- SnapshotSegment::filename: the default file name for the provided
segment and range, "snapshot_{kind}_{start}_{end}". -/
def SnapshotSegment.filename (seg : SnapshotSegment)
    (block_range : SegmentRangeInclusive) : String :=
  "snapshot_" ++ seg.as_ref ++ "_" ++ natToString block_range.start ++ "_"
    ++ natToString block_range.end_

/-- The filters_name string computed inside filename_with_configuration:
"{inclusion}-{phf}" for WithFilters, "none" for WithoutFilters. -/
def filtersName : Filters → String
  | Filters.WithFilters inclusion_filter phf =>
      inclusion_filter.as_ref ++ "-" ++ phf.as_ref
  | Filters.WithoutFilters => "none"

/-- SnapshotSegment::filename_with_configuration: the file name for the
provided segment and range alongside filters and compression. -/
def SnapshotSegment.filename_with_configuration (seg : SnapshotSegment)
    (filters : Filters) (compression : Compression)
    (block_range : SegmentRangeInclusive) : String :=
  let base := seg.filename block_range
  base ++ "_" ++ filtersName filters ++ "_" ++ compression.as_ref

/-- SnapshotSegment::parse_filename: parses a filename into a
SnapshotSegment and its expected block range; the successive parts.next()
calls of the source become positional lookups into the token list. -/
def SnapshotSegment.parse_filename (name : String) :
    Option (SnapshotSegment × SegmentRangeInclusive) :=
  let parts := splitUnderscore name.data
  (parts[0]?).bind fun p0 =>
    if p0 = "snapshot".data then
      ((parts[1]?).bind SnapshotSegment.from_str).bind fun segment =>
        ((parts[2]?).bind parseU64).bind fun block_start =>
          ((parts[3]?).bind parseU64).bind fun block_end =>
            if block_start > block_end then none
            else some (segment, SegmentRangeInclusive.new block_start block_end)
    else none

/-- A segment header that contains information common to all segments
(struct SegmentHeader). -/
structure SegmentHeader where
  block_range : SegmentRangeInclusive
  tx_range : Option SegmentRangeInclusive
  segment : SnapshotSegment
deriving DecidableEq, Repr

/-- SegmentHeader::new. -/
def SegmentHeader.new (block_range : SegmentRangeInclusive)
    (tx_range : Option SegmentRangeInclusive)
    (segment : SnapshotSegment) : SegmentHeader :=
  ⟨block_range, tx_range, segment⟩

/-- SegmentHeader::block_start: first block number of the segment. -/
def SegmentHeader.block_start (h : SegmentHeader) : Nat :=
  h.block_range.start

/-- SegmentHeader::block_end: last block number of the segment. -/
def SegmentHeader.block_end (h : SegmentHeader) : Nat :=
  h.block_range.end_

/-- SegmentHeader::tx_start, which panics when tx_range is None; the panic
is embedded as none. -/
def SegmentHeader.tx_start (h : SegmentHeader) : Option Nat :=
  h.tx_range.map SegmentRangeInclusive.start

/-- SegmentHeader::tx_end, which panics when tx_range is None; the panic is
embedded as none. -/
def SegmentHeader.tx_end (h : SegmentHeader) : Option Nat :=
  h.tx_range.map SegmentRangeInclusive.end_

/-- SegmentHeader::increment_block: block_range.end += 1 (u64 wrapping). -/
def SegmentHeader.increment_block (h : SegmentHeader) : SegmentHeader :=
  { h with block_range := { h.block_range with
      end_ := (h.block_range.end_ + 1) % U64_MOD } }

/-- SegmentHeader::increment_tx: for Transactions/Receipts segments, bump
tx_range.end (u64 wrapping) or bootstrap tx_range at [0,0]; no-op for
Headers segments. -/
def SegmentHeader.increment_tx (h : SegmentHeader) : SegmentHeader :=
  match h.segment with
  | SnapshotSegment.Headers => h
  | SnapshotSegment.Transactions | SnapshotSegment.Receipts =>
    match h.tx_range with
    | some r => { h with tx_range := some { r with end_ := (r.end_ + 1) % U64_MOD } }
    | none => { h with tx_range := some (SegmentRangeInclusive.new 0 0) }

/-- SegmentHeader::prune: removes num elements from the end of the tx or
block range; Nat subtraction is Rust's saturating_sub. -/
def SegmentHeader.prune (h : SegmentHeader) (num : Nat) : SegmentHeader :=
  match h.segment with
  | SnapshotSegment.Headers =>
    { h with block_range := { h.block_range with
        end_ := h.block_range.end_ - num } }
  | SnapshotSegment.Transactions | SnapshotSegment.Receipts =>
    match h.tx_range with
    | some range =>
      if num > range.end_ then { h with tx_range := none }
      else { h with tx_range := some { range with end_ := range.end_ - num } }
    | none => h

/-- SegmentHeader::start: the row offset, which depends on whether the
segment is block or transaction based; the tx_start panic on a missing
tx_range is embedded as none. -/
def SegmentHeader.start (h : SegmentHeader) : Option Nat :=
  match h.segment with
  | SnapshotSegment.Headers => some h.block_start
  | SnapshotSegment.Transactions | SnapshotSegment.Receipts => h.tx_start

/-- One mutation step on a SegmentHeader, used to state invariants over
arbitrary operation sequences. -/
inductive Op
  | incBlock
  | incTx
  | pruneOp (num : Nat)
deriving DecidableEq, Repr

/-- Apply one operation to a header. -/
def applyOp (h : SegmentHeader) : Op → SegmentHeader
  | Op.incBlock => h.increment_block
  | Op.incTx => h.increment_tx
  | Op.pruneOp num => h.prune num

/-- Apply a sequence of operations to a header, left to right. -/
def applyOps (h : SegmentHeader) (ops : List Op) : SegmentHeader :=
  ops.foldl applyOp h

lemma natDigitsAux_congr (n : Nat) : ∀ f₁ f₂ : Nat, n ≤ f₁ → n ≤ f₂ →
    natDigitsAux f₁ n = natDigitsAux f₂ n := by
  induction n using Nat.strong_induction_on with
  | _ n ih =>
    intro f₁ f₂ h1 h2
    by_cases hn : n = 0
    · subst hn
      cases f₁ <;> cases f₂ <;> simp [natDigitsAux]
    · obtain ⟨a, rfl⟩ : ∃ a, f₁ = a + 1 := ⟨f₁ - 1, by omega⟩
      obtain ⟨b, rfl⟩ : ∃ b, f₂ = b + 1 := ⟨f₂ - 1, by omega⟩
      have hd : n / 10 < n := Nat.div_lt_self (Nat.pos_of_ne_zero hn) (by decide)
      simp only [natDigitsAux, hn, if_false]
      exact congrArg _ (ih (n / 10) hd a b (by omega) (by omega))

lemma natDigits_eq (n : Nat) :
    natDigits n = if n = 0 then [] else (n % 10) :: natDigits (n / 10) := by
  by_cases hn : n = 0
  · subst hn; simp [natDigits, natDigitsAux]
  · obtain ⟨m, rfl⟩ : ∃ m, n = m + 1 := ⟨n - 1, by omega⟩
    have hd : (m + 1) / 10 < m + 1 := Nat.div_lt_self (by omega) (by decide)
    simp only [hn, if_false, natDigits]
    simp only [natDigitsAux, hn, if_false]
    exact congrArg _ (natDigitsAux_congr ((m + 1) / 10) m ((m + 1) / 10) (by omega) le_rfl)

lemma natDigits_lt_ten (n : Nat) : ∀ d ∈ natDigits n, d < 10 := by
  induction n using Nat.strong_induction_on with
  | _ n ih =>
    rw [natDigits_eq]
    by_cases hn : n = 0
    · simp [hn]
    · simp only [hn, if_false, List.mem_cons]
      rintro d (rfl | hd)
      · exact Nat.mod_lt _ (by decide)
      · exact ih (n / 10) (Nat.div_lt_self (Nat.pos_of_ne_zero hn) (by decide)) d hd

lemma foldr_natDigits (n : Nat) :
    (natDigits n).foldr (fun d acc => acc * 10 + d) 0 = n := by
  induction n using Nat.strong_induction_on with
  | _ n ih =>
    rw [natDigits_eq]
    by_cases hn : n = 0
    · simp [hn]
    · simp only [hn, if_false, List.foldr_cons]
      rw [ih (n / 10) (Nat.div_lt_self (Nat.pos_of_ne_zero hn) (by decide))]
      omega

set_option maxHeartbeats 1000000 in
lemma decDigit_facts : ∀ d < 10, charVal (decDigit d) = d ∧
    (decDigit d).isDigit = true ∧ decDigit d ≠ '_' ∧ decDigit d ≠ '+' := by decide

lemma natToString_data (n : Nat) :
    (natToString n).data =
      if n = 0 then ['0'] else (natDigits n).reverse.map decDigit := by
  unfold natToString
  split <;> rfl

lemma natToString_mem (n : Nat) : ∀ c ∈ (natToString n).data,
    c.isDigit = true ∧ c ≠ '_' ∧ c ≠ '+' := by
  intro c hc
  rw [natToString_data] at hc
  by_cases hn : n = 0
  · simp [hn] at hc
    subst hc
    decide
  · simp only [hn, if_false, List.mem_map, List.mem_reverse] at hc
    obtain ⟨d, hd, rfl⟩ := hc
    have := decDigit_facts d (natDigits_lt_ten n d hd)
    exact this.2

lemma natToString_ne_nil (n : Nat) : (natToString n).data ≠ [] := by
  rw [natToString_data]
  by_cases hn : n = 0
  · simp [hn]
  · simp only [hn, if_false]
    intro hcontra
    rw [natDigits_eq n] at hcontra
    simp [hn] at hcontra

lemma foldl_digit_chars (l : List Nat) (hl : ∀ d ∈ l, d < 10) (acc : Nat) :
    List.foldl (fun a c => a * 10 + charVal c) acc (List.map decDigit l.reverse) =
      List.foldr (fun d a => a * 10 + d) acc l := by
  induction l generalizing acc with
  | nil => rfl
  | cons d ds ih =>
    simp only [List.reverse_cons, List.map_append, List.map_cons, List.map_nil,
      List.foldl_append, List.foldl_cons, List.foldl_nil, List.foldr_cons]
    rw [ih (fun x hx => hl x (List.mem_cons_of_mem d hx)) acc,
      (decDigit_facts d (hl d (List.mem_cons_self d ds))).1]

lemma parseU64_natToString (n : Nat) (h : n < U64_MOD) :
    parseU64 (natToString n).data = some n := by
  by_cases hn : n = 0
  · subst hn; decide
  · have hdata : (natToString n).data = (natDigits n).reverse.map decDigit := by
      rw [natToString_data]; simp [hn]
    have hmem := natToString_mem n
    rw [hdata] at hmem ⊢
    cases hl : (natDigits n).reverse.map decDigit with
    | nil => exact absurd (hdata ▸ hl ▸ natToString_ne_nil n) (by simp [hdata, hl])
    | cons c cs =>
      have hcmem : ∀ x ∈ c :: cs, x.isDigit = true ∧ x ≠ '_' ∧ x ≠ '+' := hl ▸ hmem
      have hcplus : c ≠ '+' := (hcmem c (List.mem_cons_self c cs)).2.2
      have hall : (c :: cs).all Char.isDigit = true := by
        rw [List.all_eq_true]
        exact fun x hx => (hcmem x hx).1
      have hfold : (c :: cs).foldl (fun a d => a * 10 + charVal d) 0 = n := by
        rw [← hl, foldl_digit_chars _ (natDigits_lt_ten n) 0, foldr_natDigits]
      simp only [parseU64, if_neg hcplus, hall, if_true, hfold, if_pos h]

lemma splitUnderscore_no_underscore (l : List Char) (h : '_' ∉ l) :
    splitUnderscore l = [l] := by
  induction l with
  | nil => rfl
  | cons c cs ih =>
    have hc : c ≠ '_' := fun hcontra => h (hcontra ▸ List.mem_cons_self c cs)
    simp only [splitUnderscore, if_neg hc, ih (fun hx => h (List.mem_cons_of_mem c hx))]

lemma splitUnderscore_append (a b : List Char) (h : '_' ∉ a) :
    splitUnderscore (a ++ '_' :: b) = a :: splitUnderscore b := by
  induction a with
  | nil => simp [splitUnderscore]
  | cons c cs ih =>
    have hc : c ≠ '_' := fun hcontra => h (hcontra ▸ List.mem_cons_self c cs)
    simp only [List.cons_append, splitUnderscore, if_neg hc, List.append_eq]
    rw [ih (fun hx => h (List.mem_cons_of_mem c hx))]

lemma from_str_as_ref (k : SnapshotSegment) :
    SnapshotSegment.from_str k.as_ref.data = some k := by
  cases k <;> rfl

lemma as_ref_no_underscore (k : SnapshotSegment) : '_' ∉ k.as_ref.data := by
  cases k <;> decide

lemma natToString_no_underscore (n : Nat) : '_' ∉ (natToString n).data :=
  fun hx => (natToString_mem n _ hx).2.1 rfl

lemma parse_filename_data (s : String) (k : SnapshotSegment) (a b : Nat)
    (tail : List Char)
    (hdata : s.data = "snapshot".data ++ '_' :: (k.as_ref.data ++ '_' ::
      ((natToString a).data ++ '_' :: ((natToString b).data ++ tail))))
    (htail : tail = [] ∨ ∃ t, tail = '_' :: t)
    (ha : a < U64_MOD) (hb : b < U64_MOD) (hab : a ≤ b) :
    SnapshotSegment.parse_filename s = some (k, SegmentRangeInclusive.new a b) := by
  have hsnap : '_' ∉ "snapshot".data := by decide
  obtain ⟨rest, hrest⟩ : ∃ rest,
      splitUnderscore ((natToString b).data ++ tail) = (natToString b).data :: rest := by
    rcases htail with rfl | ⟨t, rfl⟩
    · rw [List.append_nil, splitUnderscore_no_underscore _ (natToString_no_underscore b)]
      exact ⟨[], rfl⟩
    · rw [splitUnderscore_append _ _ (natToString_no_underscore b)]
      exact ⟨_, rfl⟩
  have hsplit : splitUnderscore s.data =
      "snapshot".data :: k.as_ref.data :: (natToString a).data ::
        (natToString b).data :: rest := by
    rw [hdata, splitUnderscore_append _ _ hsnap,
      splitUnderscore_append _ _ (as_ref_no_underscore k),
      splitUnderscore_append _ _ (natToString_no_underscore a), hrest]
  simp only [SnapshotSegment.parse_filename, hsplit, List.getElem?_cons_zero,
    List.getElem?_cons_succ, Option.some_bind, eq_self_iff_true, if_true,
    from_str_as_ref, parseU64_natToString a ha, parseU64_natToString b hb]
  rw [if_neg (by omega)]

lemma snapshot_underscore_data : ("snapshot_" : String).data = "snapshot".data ++ ['_'] := rfl

lemma underscore_data : ("_" : String).data = ['_'] := rfl

lemma filename_data (k : SnapshotSegment) (r : SegmentRangeInclusive) :
    (k.filename r).data = "snapshot".data ++ '_' :: (k.as_ref.data ++ '_' ::
      ((natToString r.start).data ++ '_' :: ((natToString r.end_).data ++ []))) := by
  simp only [SnapshotSegment.filename, String.data_append, snapshot_underscore_data,
    underscore_data, List.append_assoc, List.singleton_append, List.append_nil,
    List.cons_append, List.nil_append]

lemma filename_with_configuration_data (k : SnapshotSegment) (f : Filters)
    (c : Compression) (r : SegmentRangeInclusive) :
    (k.filename_with_configuration f c r).data =
      "snapshot".data ++ '_' :: (k.as_ref.data ++ '_' ::
        ((natToString r.start).data ++ '_' :: ((natToString r.end_).data ++
          ('_' :: ((filtersName f).data ++ '_' :: c.as_ref.data))))) := by
  simp only [SnapshotSegment.filename_with_configuration, SnapshotSegment.filename,
    String.data_append, snapshot_underscore_data, underscore_data,
    List.append_assoc, List.singleton_append, List.cons_append, List.nil_append]

/-- Claim C1: for every segment kind and every range with start ≤ end (as u64
values), parse_filename inverts filename, and also inverts
filename_with_configuration for every filters and compression choice, since
decoding consumes only the first four underscore-separated tokens. -/
theorem parse_filename_roundtrip (k : SnapshotSegment) (r : SegmentRangeInclusive)
    (h1 : r.start ≤ r.end_) (h2 : r.end_ < U64_MOD) :
    SnapshotSegment.parse_filename (k.filename r) = some (k, r) ∧
    ∀ (f : Filters) (c : Compression),
      SnapshotSegment.parse_filename (k.filename_with_configuration f c r) =
        some (k, r) := by
  have h2a : r.start < U64_MOD := lt_of_le_of_lt h1 h2
  constructor
  · exact parse_filename_data _ k r.start r.end_ [] (filename_data k r)
      (Or.inl rfl) h2a h2 h1
  · intro f c
    exact parse_filename_data _ k r.start r.end_
      ('_' :: ((filtersName f).data ++ '_' :: c.as_ref.data))
      (filename_with_configuration_data k f c r) (Or.inr ⟨_, rfl⟩) h2a h2 h1

/-- Witness for parse_filename_roundtrip at the Headers segment with range
[2,30] and the cuckoo-fmph lz4 configuration. -/
theorem parse_filename_roundtrip_witness :
    (2 ≤ 30 ∧ 30 < U64_MOD) ∧
    SnapshotSegment.parse_filename
      (SnapshotSegment.Headers.filename (SegmentRangeInclusive.new 2 30)) =
      some (SnapshotSegment.Headers, SegmentRangeInclusive.new 2 30) ∧
    SnapshotSegment.parse_filename
      (SnapshotSegment.Headers.filename_with_configuration
        (Filters.WithFilters InclusionFilter.Cuckoo PerfectHashingFunction.Fmph)
        Compression.Lz4 (SegmentRangeInclusive.new 2 30)) =
      some (SnapshotSegment.Headers, SegmentRangeInclusive.new 2 30) :=
  ⟨⟨by decide, by decide⟩,
    (parse_filename_roundtrip SnapshotSegment.Headers (SegmentRangeInclusive.new 2 30)
      (by decide) (by decide)).1,
    (parse_filename_roundtrip SnapshotSegment.Headers (SegmentRangeInclusive.new 2 30)
      (by decide) (by decide)).2 _ _⟩

/-- Claim C3: parse_filename is total (a Lean function, so it never aborts on
any input string) and returns none exactly when the first underscore token is
not "snapshot", or the second token is missing or not a valid kind tag, or
the third or fourth token is missing or does not parse as a u64, or the
parsed start exceeds the parsed end; in particular both
"snapshot_headers_2" and "snapshot_headers_" are rejected. -/
theorem parse_filename_none_iff (name : String) :
    (SnapshotSegment.parse_filename name = none ↔
      ((splitUnderscore name.data)[0]? ≠ some "snapshot".data ∨
       ((splitUnderscore name.data)[1]?.bind SnapshotSegment.from_str) = none ∨
       ((splitUnderscore name.data)[2]?.bind parseU64) = none ∨
       ((splitUnderscore name.data)[3]?.bind parseU64) = none ∨
       ∃ a b, ((splitUnderscore name.data)[2]?.bind parseU64) = some a ∧
         ((splitUnderscore name.data)[3]?.bind parseU64) = some b ∧ b < a)) ∧
    SnapshotSegment.parse_filename "snapshot_headers_2" = none ∧
    SnapshotSegment.parse_filename "snapshot_headers_" = none := by
  refine ⟨?_, by decide, by decide⟩
  simp only [SnapshotSegment.parse_filename]
  cases h0 : (splitUnderscore name.data)[0]? with
  | none => simp [h0]
  | some p0 =>
    by_cases hp0 : p0 = "snapshot".data
    · subst hp0
      simp only [h0, Option.some_bind, if_pos rfl, ne_eq, not_true_eq_false,
        false_or]
      cases h1 : (splitUnderscore name.data)[1]?.bind SnapshotSegment.from_str with
      | none => simp [h1]
      | some seg =>
        simp only [Option.some_bind, reduceCtorEq, false_or]
        cases h2 : (splitUnderscore name.data)[2]?.bind parseU64 with
        | none => simp
        | some a =>
          simp only [Option.some_bind, reduceCtorEq, false_or]
          cases h3 : (splitUnderscore name.data)[3]?.bind parseU64 with
          | none => simp
          | some b =>
            simp only [Option.some_bind, reduceCtorEq, false_or]
            by_cases hab : a > b
            · rw [if_pos hab]
              exact ⟨fun _ => ⟨a, b, rfl, rfl, hab⟩, fun _ => rfl⟩
            · rw [if_neg hab]
              constructor
              · intro hcontra
                exact absurd hcontra (by simp)
              · rintro ⟨x, y, hx, hy, hxy⟩
                rw [Option.some.injEq] at hx hy
                omega
    · simp [h0, hp0]

/-- Witness for parse_filename_none_iff at the concrete rejected name. -/
theorem parse_filename_none_iff_witness :
    SnapshotSegment.parse_filename "snapshot_headers_2" = none :=
  (parse_filename_none_iff "snapshot_headers_2").2.1

/-- Claim C8: filename produces exactly "snapshot_{kind}_{start}_{end}" with
the lowercase kind tag and decimal endpoints, checked on the three literal
test vectors of the source. -/
theorem filename_literal_vectors :
    SnapshotSegment.Headers.filename (SegmentRangeInclusive.new 2 30) =
      "snapshot_headers_2_30" ∧
    SnapshotSegment.Receipts.filename (SegmentRangeInclusive.new 30 300) =
      "snapshot_receipts_30_300" ∧
    SnapshotSegment.Transactions.filename
        (SegmentRangeInclusive.new 1123233 11223233) =
      "snapshot_transactions_1123233_11223233" := by decide

/-- Claim C10: parse_filename accepts names the encoder never produces: the
leading-zero name "snapshot_headers_02_30" parses to (Headers, [2,30]) yet
filename(Headers, [2,30]) is the distinct accepted name
"snapshot_headers_2_30", so parse_filename is not injective on accepted
inputs and re-encoding a decoded name is not the identity. -/
theorem parse_filename_not_injective :
    SnapshotSegment.parse_filename "snapshot_headers_02_30" =
      some (SnapshotSegment.Headers, SegmentRangeInclusive.new 2 30) ∧
    SnapshotSegment.parse_filename "snapshot_headers_2_30" =
      some (SnapshotSegment.Headers, SegmentRangeInclusive.new 2 30) ∧
    SnapshotSegment.Headers.filename (SegmentRangeInclusive.new 2 30) ≠
      "snapshot_headers_02_30" ∧
    ("snapshot_headers_02_30" : String) ≠ "snapshot_headers_2_30" := by decide

/-- Claim C4: increment_tx bootstraps tx_range at [0,0] when it is None
(regardless of the block range), bumps tx_range.end by one (as a u64) when
it is Some, is a no-op for Headers-kind headers, and a fresh
Transactions-kind header reaches tx_range = Some([0,1]) after two calls. -/
theorem increment_tx_spec (h : SegmentHeader) :
    (h.segment = SnapshotSegment.Headers → h.increment_tx = h) ∧
    (h.segment ≠ SnapshotSegment.Headers →
      (h.tx_range = none →
        h.increment_tx.tx_range = some (SegmentRangeInclusive.new 0 0)) ∧
      (∀ r, h.tx_range = some r →
        h.increment_tx.tx_range =
          some (SegmentRangeInclusive.new r.start ((r.end_ + 1) % U64_MOD)))) ∧
    ((SegmentHeader.new (SegmentRangeInclusive.new 0 0) none
        SnapshotSegment.Transactions).increment_tx.increment_tx.tx_range =
      some (SegmentRangeInclusive.new 0 1)) := by
  obtain ⟨br, tr, sg⟩ := h
  refine ⟨?_, ?_, by decide⟩ <;>
    cases sg <;> cases tr <;>
      simp [SegmentHeader.increment_tx, SegmentHeader.new, SegmentRangeInclusive.new]

/-- Witness for increment_tx_spec: the Headers no-op at a concrete header. -/
theorem increment_tx_spec_witness :
    (SegmentHeader.new (SegmentRangeInclusive.new 0 5) none
        SnapshotSegment.Headers).increment_tx =
      SegmentHeader.new (SegmentRangeInclusive.new 0 5) none
        SnapshotSegment.Headers :=
  (increment_tx_spec _).1 rfl

/-- Claim C5: for Transactions- and Receipts-kind headers, prune(num) is a
no-op when tx_range is None, clears tx_range when num exceeds tx_range.end,
and otherwise saturating-subtracts num from tx_range.end; a header with
tx_range [5,10] has tx_range None after prune(20). -/
theorem prune_tx_spec (h : SegmentHeader) (num : Nat)
    (hseg : h.segment ≠ SnapshotSegment.Headers) :
    (h.tx_range = none → h.prune num = h) ∧
    (∀ r, h.tx_range = some r →
      (num > r.end_ → (h.prune num).tx_range = none) ∧
      (num ≤ r.end_ → (h.prune num).tx_range =
        some (SegmentRangeInclusive.new r.start (r.end_ - num)))) ∧
    (((SegmentHeader.new (SegmentRangeInclusive.new 0 0)
        (some (SegmentRangeInclusive.new 5 10))
        SnapshotSegment.Transactions).prune 20).tx_range = none) := by
  obtain ⟨br, tr, sg⟩ := h
  cases sg
  · exact absurd rfl hseg
  all_goals
    refine ⟨?_, ?_, by decide⟩
    · intro htr
      subst htr
      rfl
    · rintro r hr
      subst hr
      constructor
      · intro hgt
        simp [SegmentHeader.prune, if_pos hgt]
      · intro hle
        simp [SegmentHeader.prune, if_neg (by omega : ¬ num > r.end_),
          SegmentRangeInclusive.new]

/-- Witness for prune_tx_spec at a concrete Transactions header. -/
theorem prune_tx_spec_witness :
    ((SegmentHeader.new (SegmentRangeInclusive.new 0 0)
        (some (SegmentRangeInclusive.new 5 10))
        SnapshotSegment.Transactions).prune 20).tx_range = none :=
  (prune_tx_spec (SegmentHeader.new (SegmentRangeInclusive.new 0 0)
      (some (SegmentRangeInclusive.new 5 10)) SnapshotSegment.Transactions)
    20 (by decide)).2.2

/-- Claim C6: prune on a Headers-kind header saturating-subtracts num from
block_range.end and leaves block_range.start unchanged; [10,20] pruned by 5
yields [10,15]. -/
theorem prune_headers_spec (h : SegmentHeader) (num : Nat)
    (hseg : h.segment = SnapshotSegment.Headers) :
    (h.prune num).block_range =
      SegmentRangeInclusive.new h.block_range.start (h.block_range.end_ - num) ∧
    ((SegmentHeader.new (SegmentRangeInclusive.new 10 20) none
        SnapshotSegment.Headers).prune 5).block_range =
      SegmentRangeInclusive.new 10 15 := by
  obtain ⟨br, tr, sg⟩ := h
  subst hseg
  exact ⟨rfl, by decide⟩

/-- Witness for prune_headers_spec at a concrete Headers header. -/
theorem prune_headers_spec_witness :
    ((SegmentHeader.new (SegmentRangeInclusive.new 10 20) none
        SnapshotSegment.Headers).prune 5).block_range =
      SegmentRangeInclusive.new 10 15 :=
  (prune_headers_spec (SegmentHeader.new (SegmentRangeInclusive.new 10 20) none
      SnapshotSegment.Headers) 5 rfl).2

/-- Claim C7: start() returns the block range start for Headers-kind
headers and the tx range start for Transactions/Receipts-kind headers when
tx_range is Some; when tx_range is None for those kinds the source panics,
embedded here as the none result. -/
theorem start_spec (h : SegmentHeader) :
    (h.segment = SnapshotSegment.Headers → h.start = some h.block_range.start) ∧
    (h.segment ≠ SnapshotSegment.Headers →
      (∀ r, h.tx_range = some r → h.start = some r.start) ∧
      (h.tx_range = none → h.start = none)) := by
  obtain ⟨br, tr, sg⟩ := h
  cases sg <;> cases tr <;>
    simp [SegmentHeader.start, SegmentHeader.tx_start, SegmentHeader.block_start]

/-- Witness for start_spec at a concrete Transactions header. -/
theorem start_spec_witness :
    (SegmentHeader.new (SegmentRangeInclusive.new 0 9)
        (some (SegmentRangeInclusive.new 7 11))
        SnapshotSegment.Transactions).start = some 7 :=
  (start_spec (SegmentHeader.new (SegmentRangeInclusive.new 0 9)
      (some (SegmentRangeInclusive.new 7 11))
      SnapshotSegment.Transactions)).2 (by decide)
    |>.1 (SegmentRangeInclusive.new 7 11) rfl

/-- Claim C9: the mutation operations only touch their own range: none of
them changes the segment kind; increment_block leaves block_range.start and
tx_range unchanged; increment_tx leaves block_range unchanged; prune leaves
tx_range unchanged on Headers-kind headers and block_range unchanged on
Transactions/Receipts-kind headers. -/
theorem mutation_frame (h : SegmentHeader) (num : Nat) :
    h.increment_block.segment = h.segment ∧
    h.increment_tx.segment = h.segment ∧
    (h.prune num).segment = h.segment ∧
    h.increment_block.block_range.start = h.block_range.start ∧
    h.increment_block.tx_range = h.tx_range ∧
    h.increment_tx.block_range = h.block_range ∧
    (h.segment = SnapshotSegment.Headers → (h.prune num).tx_range = h.tx_range) ∧
    (h.segment ≠ SnapshotSegment.Headers →
      (h.prune num).block_range = h.block_range) := by
  obtain ⟨br, tr, sg⟩ := h
  cases sg <;> cases tr <;>
    simp [SegmentHeader.increment_block, SegmentHeader.increment_tx,
      SegmentHeader.prune] <;>
    split <;> simp

/-- Witness for mutation_frame: the two prune frame conditions at concrete
headers of each kind. -/
theorem mutation_frame_witness :
    (((SegmentHeader.new (SegmentRangeInclusive.new 1 2)
        (some (SegmentRangeInclusive.new 3 4))
        SnapshotSegment.Headers).prune 3).tx_range =
      some (SegmentRangeInclusive.new 3 4)) ∧
    (((SegmentHeader.new (SegmentRangeInclusive.new 1 2)
        (some (SegmentRangeInclusive.new 3 4))
        SnapshotSegment.Receipts).prune 3).block_range =
      SegmentRangeInclusive.new 1 2) :=
  ⟨(mutation_frame (SegmentHeader.new (SegmentRangeInclusive.new 1 2)
      (some (SegmentRangeInclusive.new 3 4)) SnapshotSegment.Headers) 3).2.2.2.2.2.2.1
      rfl,
    (mutation_frame (SegmentHeader.new (SegmentRangeInclusive.new 1 2)
      (some (SegmentRangeInclusive.new 3 4)) SnapshotSegment.Receipts) 3).2.2.2.2.2.2.2
      (by decide)⟩

/-- Claim C2 counterexample: a Transactions-kind header whose tx_range is
[5,10] (so start ≤ end) reaches tx_range = Some([5,3]) with start > end
after the single operation prune(7): the prune guard compares num against
tx_range.end, not against the range length, so the invariant is not
preserved. -/
theorem tx_range_invariant_counterexample :
    (SegmentHeader.new (SegmentRangeInclusive.new 0 0)
        (some (SegmentRangeInclusive.new 5 10))
        SnapshotSegment.Transactions).segment = SnapshotSegment.Transactions ∧
    (SegmentRangeInclusive.new 5 10).start ≤ (SegmentRangeInclusive.new 5 10).end_ ∧
    (applyOps (SegmentHeader.new (SegmentRangeInclusive.new 0 0)
        (some (SegmentRangeInclusive.new 5 10))
        SnapshotSegment.Transactions) [Op.pruneOp 7]).tx_range =
      some (SegmentRangeInclusive.new 5 3) ∧
    ¬ ((SegmentRangeInclusive.new 5 3).start ≤ (SegmentRangeInclusive.new 5 3).end_) := by
  decide

lemma applyOp_tx_start_zero (h : SegmentHeader) (op : Op)
    (hz : ∀ r, h.tx_range = some r → r.start = 0) :
    ∀ r, (applyOp h op).tx_range = some r → r.start = 0 := by
  obtain ⟨br, tr, sg⟩ := h
  cases op with
  | incBlock => exact fun r hr => hz r hr
  | incTx =>
    cases sg <;> cases tr <;>
      simp_all [applyOp, SegmentHeader.increment_tx, SegmentRangeInclusive.new]
  | pruneOp num =>
    cases sg <;> cases tr <;>
      simp_all [applyOp, SegmentHeader.prune, SegmentRangeInclusive.new] <;>
      split <;> simp_all

lemma applyOps_tx_start_zero (ops : List Op) (h : SegmentHeader)
    (hz : ∀ r, h.tx_range = some r → r.start = 0) :
    ∀ r, (applyOps h ops).tx_range = some r → r.start = 0 := by
  induction ops generalizing h with
  | nil => exact hz
  | cons op ops ih => exact ih (applyOp h op) (applyOp_tx_start_zero h op hz)

/-- Claim C2 amended: for every Transactions- or Receipts-kind SegmentHeader
whose tx_range is initially None or has tx_range.start = 0 (the only start
the increment_tx bootstrap ever produces), after any sequence of
increment_block, increment_tx and prune operations, whenever tx_range is
Some, tx_range.start ≤ tx_range.end holds. -/
theorem tx_range_invariant_amended (h : SegmentHeader) (ops : List Op)
    (hseg : h.segment ≠ SnapshotSegment.Headers)
    (hinit : h.tx_range = none ∨ ∃ r, h.tx_range = some r ∧ r.start = 0) :
    ∀ r, (applyOps h ops).tx_range = some r → r.start ≤ r.end_ := by
  have hz : ∀ r, h.tx_range = some r → r.start = 0 := by
    rcases hinit with hnone | ⟨r0, hr0, h0⟩
    · intro r hr
      rw [hnone] at hr
      cases hr
    · intro r hr
      rw [hr0, Option.some.injEq] at hr
      rw [← hr]
      exact h0
  intro r hr
  rw [applyOps_tx_start_zero ops h hz r hr]
  exact Nat.zero_le _

/-- Witness for tx_range_invariant_amended: bootstrap from None by one
increment_tx. -/
theorem tx_range_invariant_amended_witness :
    ((SegmentHeader.new (SegmentRangeInclusive.new 0 0) none
        SnapshotSegment.Transactions).segment ≠ SnapshotSegment.Headers) ∧
    (SegmentRangeInclusive.new 0 0).start ≤ (SegmentRangeInclusive.new 0 0).end_ :=
  ⟨by decide,
    tx_range_invariant_amended
      (SegmentHeader.new (SegmentRangeInclusive.new 0 0) none
        SnapshotSegment.Transactions) [Op.incTx] (by decide) (Or.inl rfl)
      (SegmentRangeInclusive.new 0 0) (by decide)⟩
